import Mathlib

/-!
Verification of the signing and cancelable-transport core of the go-wechat
client SDK.  Go byte strings are modelled as lists of byte values
(`List Nat`, each entry < 256); Go maps as association lists with
no-duplicate keys; the fallible canonical encoder returns `Option`.
-/

set_option maxRecDepth 100000

namespace Wechat

/-- Go strings are byte slices; we model them as lists of byte values. -/
abbrev GoStr := List Nat

/-- Bytes of an ASCII Lean string literal (agrees with UTF-8 on ASCII). -/
def ascii (s : String) : GoStr := s.data.map Char.toNat

/-! ### net/url: query escaping (Go `url.QueryEscape` / `url.QueryUnescape`) -/

/-- Go `shouldEscape` for query components: alphanumerics and the four
    unreserved marks are kept verbatim; everything else is escaped. -/
def shouldEscape (b : Nat) : Bool :=
  !((48 ≤ b && b ≤ 57) || (65 ≤ b && b ≤ 90) || (97 ≤ b && b ≤ 122) ||
    b = 45 || b = 95 || b = 46 || b = 126)

/-- Upper-case hexadecimal digit byte for a nibble. -/
def upperHexDigit (n : Nat) : Nat := if n < 10 then 48 + n else 55 + n

/-- Escaping of a single byte in query mode: space becomes plus, unreserved
    bytes are copied, everything else becomes a percent triple. -/
def queryEscapeByte (b : Nat) : GoStr :=
  if b = 32 then [43]
  else if shouldEscape b then [37, upperHexDigit (b / 16), upperHexDigit (b % 16)]
  else [b]

/-- Go `url.QueryEscape`, byte by byte. -/
def queryEscape (s : GoStr) : GoStr := (s.map queryEscapeByte).flatten

/-- Hexadecimal digit test on a byte. -/
def isHexByte (b : Nat) : Bool :=
  (48 ≤ b && b ≤ 57) || (65 ≤ b && b ≤ 70) || (97 ≤ b && b ≤ 102)

/-- Value of a hexadecimal digit byte. -/
def unhex (b : Nat) : Nat :=
  if b ≤ 57 then b - 48 else if b ≤ 70 then b - 55 else b - 87

/-- Go `url.QueryUnescape`: percent triples decode to a byte, plus decodes
    to space, other bytes are copied; a malformed percent escape is an
    error (`none`). -/
def queryUnescape : GoStr → Option GoStr
  | [] => some []
  | 37 :: x :: y :: rest =>
      if isHexByte x && isHexByte y then
        (queryUnescape rest).map (fun r => (unhex x * 16 + unhex y) :: r)
      else none
  | [37] => none
  | [37, _] => none
  | 43 :: rest => (queryUnescape rest).map (fun r => 32 :: r)
  | b :: rest => (queryUnescape rest).map (fun r => b :: r)

/-! ### net/url: `url.Values` built with `Set`, serialized with `Encode` -/

/-- Go `url.Values.Set`: map assignment, replace the value when the key is
    present, append the pair otherwise. -/
def valuesSet (v : List (GoStr × GoStr)) (k val : GoStr) : List (GoStr × GoStr) :=
  if v.any (fun kv => decide (kv.1 = k)) then
    v.map (fun kv => if kv.1 = k then (k, val) else kv)
  else v ++ [(k, val)]

/-- Byte-wise lexicographic comparison of Go strings (Go `s1 <= s2`). -/
def goStrLe : GoStr → GoStr → Bool
  | [], _ => true
  | _ :: _, [] => false
  | a :: as, b :: bs => if a < b then true else if b < a then false else goStrLe as bs

/-- The ordering used by Go `sort.Strings` on the keys, as a relation. -/
def keyLe (a b : GoStr) : Prop := goStrLe a b = true

instance : DecidableRel keyLe := fun a b => by
  unfold keyLe; infer_instance

/-- Values stored under a key (`v[k]` of the Go map). -/
def lookupVals (v : List (GoStr × GoStr)) (k : GoStr) : List GoStr :=
  (v.filter (fun kv => decide (kv.1 = k))).map Prod.snd

/-- One escaped `key=value` component of the encoded query string. -/
def encodePair (k val : GoStr) : GoStr := queryEscape k ++ [61] ++ queryEscape val

/-- Go `url.Values.Encode`: keys sorted ascending, each pair escaped as
    `key=value`, the pairs joined by ampersands. -/
def valuesEncode (v : List (GoStr × GoStr)) : GoStr :=
  let keys := List.insertionSort keyLe (v.map Prod.fst)
  List.intercalate [38] ((keys.map (fun k => (lookupVals v k).map (encodePair k))).flatten)

/-- The `url.Values` built by `GenParamStr`: every pair of the input map
    with a non-empty value is `Set` into an initially empty `Values`. -/
def buildValues (params : List (GoStr × GoStr)) : List (GoStr × GoStr) :=
  params.foldl (fun v kv => if kv.2 ≠ [] then valuesSet v kv.1 kv.2 else v) []

/-- `GenParamStr` of utils.go: drop empty values, encode through
    `url.Values`, then percent-decode the whole encoded string. -/
def GenParamStr (params : List (GoStr × GoStr)) : Option GoStr :=
  queryUnescape (valuesEncode (buildValues params))

/-! ### crypto/md5 (RFC 1321) and `HashMd5` -/

/-- The 64 sine-derived MD5 round constants. -/
def md5K : List Nat :=
  [0xd76aa478, 0xe8c7b756, 0x242070db, 0xc1bdceee,
   0xf57c0faf, 0x4787c62a, 0xa8304613, 0xfd469501,
   0x698098d8, 0x8b44f7af, 0xffff5bb1, 0x895cd7be,
   0x6b901122, 0xfd987193, 0xa679438e, 0x49b40821,
   0xf61e2562, 0xc040b340, 0x265e5a51, 0xe9b6c7aa,
   0xd62f105d, 0x02441453, 0xd8a1e681, 0xe7d3fbc8,
   0x21e1cde6, 0xc33707d6, 0xf4d50d87, 0x455a14ed,
   0xa9e3e905, 0xfcefa3f8, 0x676f02d9, 0x8d2a4c8a,
   0xfffa3942, 0x8771f681, 0x6d9d6122, 0xfde5380c,
   0xa4beea44, 0x4bdecfa9, 0xf6bb4b60, 0xbebfbc70,
   0x289b7ec6, 0xeaa127fa, 0xd4ef3085, 0x04881d05,
   0xd9d4d039, 0xe6db99e5, 0x1fa27cf8, 0xc4ac5665,
   0xf4292244, 0x432aff97, 0xab9423a7, 0xfc93a039,
   0x655b59c3, 0x8f0ccc92, 0xffeff47d, 0x85845dd1,
   0x6fa87e4f, 0xfe2ce6e0, 0xa3014314, 0x4e0811a1,
   0xf7537e82, 0xbd3af235, 0x2ad7d2bb, 0xeb86d391]

/-- The 64 MD5 per-round left-rotation amounts. -/
def md5S : List Nat :=
  [7, 12, 17, 22, 7, 12, 17, 22, 7, 12, 17, 22, 7, 12, 17, 22,
   5, 9, 14, 20, 5, 9, 14, 20, 5, 9, 14, 20, 5, 9, 14, 20,
   4, 11, 16, 23, 4, 11, 16, 23, 4, 11, 16, 23, 4, 11, 16, 23,
   6, 10, 15, 21, 6, 10, 15, 21, 6, 10, 15, 21, 6, 10, 15, 21]

/-- Bitwise complement within 32 bits. -/
def not32 (x : Nat) : Nat := Nat.xor x (2 ^ 32 - 1)

/-- Left rotation within 32 bits. -/
def rotl32 (x n : Nat) : Nat := ((x <<< n) % 2 ^ 32) ||| (x >>> (32 - n))

/-- The four MD5 chaining words. -/
structure Md5State where
  a : Nat
  b : Nat
  c : Nat
  d : Nat
deriving DecidableEq

/-- Round function and message-word index for round `i`. -/
def md5F (i b c d : Nat) : Nat × Nat :=
  if i < 16 then ((b &&& c) ||| (not32 b &&& d), i)
  else if i < 32 then ((d &&& b) ||| (not32 d &&& c), (5 * i + 1) % 16)
  else if i < 48 then (Nat.xor b (Nat.xor c d), (3 * i + 5) % 16)
  else (Nat.xor c (b ||| not32 d), (7 * i) % 16)

/-- One MD5 round over the schedule `m`. -/
def md5Step (m : List Nat) (st : Md5State) (i : Nat) : Md5State :=
  let fg := md5F i st.b st.c st.d
  let f := (fg.1 + st.a + md5K.getD i 0 + m.getD fg.2 0) % 2 ^ 32
  { a := st.d, d := st.c, c := st.b,
    b := (st.b + rotl32 f (md5S.getD i 0)) % 2 ^ 32 }

/-- Little-endian word value of a byte list. -/
def leWord (bs : List Nat) : Nat := bs.foldr (fun b acc => b + 256 * acc) 0

/-- Serialization of a 32-bit word as four little-endian bytes. -/
def le32 (n : Nat) : GoStr := (List.range 4).map (fun i => n / 256 ^ i % 256)

/-- Serialization of a 64-bit word as eight little-endian bytes. -/
def le64 (n : Nat) : GoStr := (List.range 8).map (fun i => n / 256 ^ i % 256)

/-- Compression of one 64-byte block into the chaining state. -/
def md5Block (st : Md5State) (block : List Nat) : Md5State :=
  let m := (List.range 16).map (fun j => leWord ((block.drop (4 * j)).take 4))
  let t := (List.range 64).foldl (md5Step m) st
  { a := (st.a + t.a) % 2 ^ 32, b := (st.b + t.b) % 2 ^ 32,
    c := (st.c + t.c) % 2 ^ 32, d := (st.d + t.d) % 2 ^ 32 }

/-- Folding the compression function over the given number of leading
    64-byte blocks of the buffer. -/
def md5BlocksGo : Md5State → GoStr → Nat → Md5State
  | st, _, 0 => st
  | st, l, n + 1 => md5BlocksGo (md5Block st (l.take 64)) (l.drop 64) n

/-- Compression of every 64-byte block of the padded buffer (whose length
    is always a multiple of 64). -/
def md5Blocks (st : Md5State) (l : GoStr) : Md5State := md5BlocksGo st l (l.length / 64)

/-- MD5 padding: a 0x80 byte, zeros to 56 mod 64, then the bit length as a
    little-endian 64-bit word. -/
def md5Pad (msg : GoStr) : GoStr :=
  let len := msg.length
  let zeros := (64 + 56 - (len + 1) % 64) % 64
  msg ++ [128] ++ List.replicate zeros 0 ++ le64 (8 * len % 2 ^ 64)

/-- The MD5 initialization vector. -/
def md5Init : Md5State := ⟨0x67452301, 0xefcdab89, 0x98badcfe, 0x10325476⟩

/-- The 16-byte MD5 digest of a byte string. -/
def md5 (msg : GoStr) : GoStr :=
  let st := md5Blocks md5Init (md5Pad msg)
  le32 st.a ++ le32 st.b ++ le32 st.c ++ le32 st.d

/-- Lower-case hexadecimal digit byte for a nibble. -/
def lowerHexDigit (n : Nat) : Nat := if n < 10 then 48 + n else 87 + n

/-- Go `hex.EncodeToString`: two lower-case hex digits per byte. -/
def hexEncode (bs : GoStr) : GoStr :=
  (bs.map (fun b => [lowerHexDigit (b / 16), lowerHexDigit (b % 16)])).flatten

/-- ASCII upper-casing of one byte (Go `strings.ToUpper` on ASCII text). -/
def toUpperByte (b : Nat) : Nat := if 97 ≤ b && b ≤ 122 then b - 32 else b

/-- `HashMd5` of utils.go: MD5 digest, hex-encoded, upper-cased. -/
def HashMd5 (signStr : GoStr) : GoStr := (hexEncode (md5 signStr)).map toUpperByte

/-! ### wxService: signer and logger -/

/-- A zap logger handle, identified abstractly. -/
structure Logger where
  id : Nat
deriving DecidableEq

/-- `wxService` of req.go: HTTP client handle, shared secret, logger. -/
structure wxService where
  client : Nat
  key : GoStr
  logger : Logger
deriving DecidableEq

/-- The body of `SetLogger` as it acts on its receiver: it assigns the
    logger field of the receiver record. -/
def setLoggerBody (w : wxService) (log : Logger) : wxService := { w with logger := log }

/-- A call `w.SetLogger(log)`: the method has a value receiver, so the body
    runs on a copy of the service and the assigned copy is discarded; the
    service the caller holds afterwards is unchanged. -/
def SetLogger (w : wxService) (log : Logger) : wxService :=
  let _ := setLoggerBody w log
  w

/-- `wxService.sign`: the request, already flattened by the JSON round trip
    into a string-keyed mapping, is canonically encoded; the shared secret
    follows the `&key=` marker and the whole string is MD5-hashed and
    rendered as upper-case hex. -/
def sign (key : GoStr) (params : List (GoStr × GoStr)) : Option GoStr :=
  (GenParamStr params).map (fun paramStr => HashMd5 (paramStr ++ ascii "&key=" ++ key))

/-! ### NotifyReq and wxPay.VerifySign -/

/-- The payment notification record (all signature-relevant fields are Go
    strings; the XMLName field carries the json tag minus and is excluded
    from the JSON round trip). -/
structure NotifyReq where
  ReturnCode : GoStr
  ReturnMsg : GoStr
  AppID : GoStr
  MchID : GoStr
  DeviceInfo : GoStr
  NonceStr : GoStr
  Sign : GoStr
  SignType : GoStr
  ResultCode : GoStr
  ErrCode : GoStr
  ErrCodeDes : GoStr
  OpenId : GoStr
  IsSubscribe : GoStr
  TradeType : GoStr
  BankType : GoStr
  TotalFee : GoStr
  FeeType : GoStr
  CashFee : GoStr
  CashFeeType : GoStr
  TransactionId : GoStr
  OutTradeNo : GoStr
  TimeEnd : GoStr
deriving DecidableEq

/-- The string-keyed mapping the JSON round trip of a `NotifyReq` yields:
    one entry per field, keyed by the json tag. -/
def notifyReqParams (r : NotifyReq) : List (GoStr × GoStr) :=
  [(ascii "return_code", r.ReturnCode),
   (ascii "return_msg", r.ReturnMsg),
   (ascii "appid", r.AppID),
   (ascii "mch_id", r.MchID),
   (ascii "device_info", r.DeviceInfo),
   (ascii "nonce_str", r.NonceStr),
   (ascii "sign", r.Sign),
   (ascii "sign_type", r.SignType),
   (ascii "result_code", r.ResultCode),
   (ascii "err_code", r.ErrCode),
   (ascii "err_code_des", r.ErrCodeDes),
   (ascii "openid", r.OpenId),
   (ascii "is_subscribe", r.IsSubscribe),
   (ascii "trade_type", r.TradeType),
   (ascii "bank_type", r.BankType),
   (ascii "total_fee", r.TotalFee),
   (ascii "fee_type", r.FeeType),
   (ascii "cash_fee", r.CashFee),
   (ascii "cash_fee_type", r.CashFeeType),
   (ascii "transaction_id", r.TransactionId),
   (ascii "out_trade_no", r.OutTradeNo),
   (ascii "time_end", r.TimeEnd)]

/-- `wxPay.VerifySign`: remember the inbound signature, clear the sign
    field of the record (through the pointer), recompute the signature over
    the record, compare.  The record is passed by pointer, so the final
    record state is returned alongside the verdict. -/
def VerifySign (key : GoStr) (req : NotifyReq) : Bool × NotifyReq :=
  let oldSign := req.Sign
  let req := { req with Sign := [] }
  match sign key (notifyReqParams req) with
  | none => (false, req)
  | some s => (decide (oldSign = s), req)

/-! ### Nonce generator (`RandStringBytesMaskImprSrc` of utils.go) -/

/-- The 62-letter alphanumeric alphabet. -/
def letterBytes : GoStr :=
  ascii "0123456789abcdefghijklmnopqrstuvwxyzABCDEFGHIJKLMNOPQRSTUVWXYZ"

/-- Bits needed to index a letter. -/
def letterIdxBits : Nat := 6

/-- Mask of `letterIdxBits` one bits. -/
def letterIdxMask : Nat := (1 <<< letterIdxBits) - 1

/-- Number of letter indices fitting in 63 bits. -/
def letterIdxMax : Nat := 63 / letterIdxBits

/-- The generator loop.  The process-wide random source is modelled as the
    list `stream` of 63-bit draws; `need` counts the positions still to
    fill (Go iterates `i` from `n-1` down to `0`); bytes are produced from
    position `n-1` downwards, so prepending each produced byte to `acc`
    yields the final string.  `fuel` bounds the iteration count, `none`
    meaning the loop was cut off before finishing. -/
def randLoop : List Nat → Nat → Nat → Nat → GoStr → Nat → Option GoStr
  | _, _, _, _, _, 0 => none
  | stream, cache, remain, need, acc, fuel + 1 =>
    if need = 0 then some acc
    else if remain = 0 then
      match stream with
      | [] => none
      | c :: rest =>
        if h : c &&& letterIdxMask < letterBytes.length then
          randLoop rest (c >>> letterIdxBits) (letterIdxMax - 1) (need - 1)
            (letterBytes.get ⟨c &&& letterIdxMask, h⟩ :: acc) fuel
        else
          randLoop rest (c >>> letterIdxBits) (letterIdxMax - 1) need acc fuel
    else
      if h : cache &&& letterIdxMask < letterBytes.length then
        randLoop stream (cache >>> letterIdxBits) (remain - 1) (need - 1)
          (letterBytes.get ⟨cache &&& letterIdxMask, h⟩ :: acc) fuel
      else
        randLoop stream (cache >>> letterIdxBits) (remain - 1) need acc fuel

/-- `RandStringBytesMaskImprSrc(n)`: one initial 63-bit draw, then the
    masking loop.  `none` when the stream of draws or the fuel runs out. -/
def RandStringBytesMaskImprSrc (stream : List Nat) (n : Nat) (fuel : Nat) : Option GoStr :=
  match stream with
  | [] => none
  | c :: rest => randLoop rest c letterIdxMax n [] fuel

/-! ### ctxHttp.do: the cancelable dispatcher -/

/-- Go error values relevant to one dispatch. -/
inductive GoErr where
  | ok : GoErr
  | ctxCanceled : GoErr
  | canceledTransport : GoErr
  | transport : Nat → GoErr
  | handlerErr : Nat → GoErr
deriving DecidableEq

/-- What the caller-supplied handler does when invoked. -/
inductive HandlerOutcome where
  | ret : GoErr → HandlerOutcome
  | panics : HandlerOutcome
deriving DecidableEq

/-- Abstract timeline and environment of one dispatch: the instant the
    cancellation signal fires (if ever), the instant the background
    goroutine evaluates its select statement, the instant the underlying
    network call completes, the transport error that call reports when it
    runs uncancelled, and the handler. -/
structure DispatchModel where
  tCancel : Option Nat
  tSelect : Nat
  tNetDone : Nat
  netErr : GoErr
  handler : GoErr → HandlerOutcome

/-- Whether the Done channel of the context is closed at instant `t`. -/
def ctxDoneAt (tCancel : Option Nat) (t : Nat) : Bool :=
  match tCancel with
  | none => false
  | some tc => tc ≤ t

/-- The error the wrapped `client.Do` reports: a cancellation-induced
    transport error when the signal fires before the call completes, the
    ordinary transport outcome otherwise. -/
def netOutcome (m : DispatchModel) : GoErr :=
  if ctxDoneAt m.tCancel m.tNetDone then GoErr.canceledTransport else m.netErr

/-- Observable outcome of one `ctxHttp.do` call.  `returned = none` means
    the caller blocks forever on the channel receive. -/
structure DispatchOutcome where
  returned : Option GoErr
  handlerInvocations : Nat
  processTerminated : Bool
  panicLogged : Bool
deriving DecidableEq

/-- `ctxHttp.do`: the goroutine evaluates a select with a default branch,
    so the Done channel is polled exactly once, at `tSelect`.  If it is
    already closed, the context error is sent and the handler never runs;
    otherwise the network call runs to completion and the handler is
    invoked once with its outcome.  A panic in the goroutine is caught by
    the deferred recover and logged, but then nothing is ever sent on the
    unbuffered channel, so the caller never returns. -/
def ctxHttpDo (m : DispatchModel) : DispatchOutcome :=
  if ctxDoneAt m.tCancel m.tSelect then
    { returned := some GoErr.ctxCanceled, handlerInvocations := 0,
      processTerminated := false, panicLogged := false }
  else
    match m.handler (netOutcome m) with
    | HandlerOutcome.ret e =>
      { returned := some e, handlerInvocations := 1,
        processTerminated := false, panicLogged := false }
    | HandlerOutcome.panics =>
      { returned := none, handlerInvocations := 1,
        processTerminated := false, panicLogged := true }

/-! ### Concrete inputs used by counterexamples and witnesses -/

/-- A dispatch whose cancellation signal fires after the select poll but
    before the network call completes. -/
def lateCancel : DispatchModel :=
  { tCancel := some 1, tSelect := 0, tNetDone := 2, netErr := GoErr.ok,
    handler := fun e => HandlerOutcome.ret e }

/-- A dispatch whose cancellation signal has already fired when the
    goroutine polls the Done channel. -/
def earlyCancel : DispatchModel :=
  { tCancel := some 0, tSelect := 0, tNetDone := 2, netErr := GoErr.ok,
    handler := fun e => HandlerOutcome.ret e }

/-- An uncancelled dispatch whose handler panics. -/
def panickyDispatch : DispatchModel :=
  { tCancel := none, tSelect := 0, tNetDone := 1, netErr := GoErr.ok,
    handler := fun _ => HandlerOutcome.panics }

/-- A notification record with every field empty. -/
def emptyNotifyReq : NotifyReq :=
  { ReturnCode := [], ReturnMsg := [], AppID := [], MchID := [], DeviceInfo := [],
    NonceStr := [], Sign := [], SignType := [], ResultCode := [], ErrCode := [],
    ErrCodeDes := [], OpenId := [], IsSubscribe := [], TradeType := [],
    BankType := [], TotalFee := [], FeeType := [], CashFee := [],
    CashFeeType := [], TransactionId := [], OutTradeNo := [], TimeEnd := [] }

/-- An inbound record carrying a non-empty signature. -/
def inboundReq : NotifyReq := { emptyNotifyReq with Sign := ascii "OLD" }

/-- A shared secret used in concrete scenarios. -/
def demoKey : GoStr := ascii "secret"

/-- A record with a non-empty sign field at signing time. -/
def presignedReq : NotifyReq := { emptyNotifyReq with AppID := ascii "wx", Sign := ascii "x" }

/-- The signature of `emptyNotifyReq` (whose sign field is empty) under
    `demoKey`. -/
def demoSig : GoStr := (sign demoKey (notifyReqParams emptyNotifyReq)).getD []

/-- The upper-case hexadecimal alphabet. -/
def upperHexBytes : GoStr := ascii "0123456789ABCDEF"

end Wechat

namespace Wechat

/-! ## Theorems -/

/-- Helper: folding `Set` over pairs that all carry an empty value leaves
    the accumulated `url.Values` unchanged. -/
theorem foldl_set_skip (l : List (GoStr × GoStr)) (v : List (GoStr × GoStr))
    (h : ∀ kv ∈ l, kv.2 = ([] : GoStr)) :
    List.foldl (fun v kv => if kv.2 ≠ [] then valuesSet v kv.1 kv.2 else v) v l = v := by
  induction l generalizing v with
  | nil => rfl
  | cons kv rest ih =>
    simp only [List.foldl_cons]
    rw [if_neg (fun hne => hne (h kv (List.mem_cons_self _ _)))]
    exact ih v (fun x hx => h x (List.mem_cons_of_mem _ hx))

/-- C8: encoding the empty mapping, or any mapping in which every value is
    the empty string, returns the empty string and no error. -/
theorem genParamStr_all_empty (params : List (GoStr × GoStr))
    (h : ∀ kv ∈ params, kv.2 = ([] : GoStr)) :
    GenParamStr params = some [] := by
  have hb : buildValues params = [] := foldl_set_skip params [] h
  unfold GenParamStr
  rw [hb]
  decide

/-- Witness for C8 at the two concrete mappings of the spec. -/
theorem genParamStr_all_empty_witness :
    GenParamStr [] = some [] ∧ GenParamStr [(ascii "k", ascii "")] = some [] :=
  ⟨genParamStr_all_empty [] (by decide), genParamStr_all_empty [(ascii "k", ascii "")] (by decide)⟩

/-- C6: encoding the five-pair mapping of the spec drops the two pairs with
    empty values and yields the ampersand-joined canonical string with keys
    sorted ascending. -/
theorem genParamStr_concrete_scenario :
    GenParamStr [(ascii "appid", ascii "wx123"), (ascii "mch_id", ascii "1900"),
      (ascii "nonce_str", ascii ""), (ascii "sign", ascii ""),
      (ascii "out_trade_no", ascii "ORDER1")]
      = some (ascii "appid=wx123&mch_id=1900&out_trade_no=ORDER1") := by decide

/-- C10: `SetLogger` has a value receiver, so a call leaves the service the
    caller holds unchanged, even though the method body does assign the
    logger of its receiver copy. -/
theorem setLogger_no_observable_effect (w : wxService) (log : Logger) :
    SetLogger w log = w ∧ (setLoggerBody w log).logger = log :=
  ⟨rfl, rfl⟩

/-- C1 counterexample: in `lateCancel` the cancellation fires at instant 1,
    before the network call completes at instant 2, yet the dispatch does
    not return the cancellation error with the handler uninvoked — the
    select default branch was already taken, so the handler runs. -/
theorem ctxDo_cancellation_precedence_cex :
    lateCancel.tCancel = some 1 ∧ 1 < lateCancel.tNetDone ∧
    ¬ ((ctxHttpDo lateCancel).returned = some GoErr.ctxCanceled ∧
       (ctxHttpDo lateCancel).handlerInvocations = 0) := by decide

/-- C1 amended: the dispatcher polls the Done channel exactly once, at the
    instant its select statement runs; the handler is skipped and the
    cancellation error returned precisely when the signal has fired by that
    instant; otherwise the handler is invoked exactly once and, whenever it
    returns a value, dispatch returns that value — even if the cancellation
    signal fired after the poll and before the network call completed. -/
theorem ctxDo_single_poll (m : DispatchModel) :
    ((ctxHttpDo m).handlerInvocations = 0 ↔ ctxDoneAt m.tCancel m.tSelect = true) ∧
    (ctxDoneAt m.tCancel m.tSelect = true →
      (ctxHttpDo m).returned = some GoErr.ctxCanceled) ∧
    (ctxDoneAt m.tCancel m.tSelect = false →
      ∀ e, m.handler (netOutcome m) = HandlerOutcome.ret e →
        (ctxHttpDo m).returned = some e) := by
  unfold ctxHttpDo
  by_cases hd : ctxDoneAt m.tCancel m.tSelect
  · simp [hd]
  · refine ⟨?_, by simp [hd], fun _ e he => ?_⟩
    · simp only [hd, if_neg, Bool.false_eq_true, iff_false, if_false]
      cases hh : m.handler (netOutcome m) <;> simp [hh]
    · simp [hd, he]

/-- Witness for C1 amended: at `earlyCancel` the signal has fired by the
    poll, so the context error is returned; at `lateCancel` it fires only
    after the poll, so dispatch returns what the handler returned (here the
    cancellation-induced transport error the handler was handed). -/
theorem ctxDo_single_poll_witness :
    (ctxHttpDo earlyCancel).returned = some GoErr.ctxCanceled ∧
    (ctxHttpDo lateCancel).returned = some GoErr.canceledTransport :=
  ⟨(ctxDo_single_poll earlyCancel).2.1 (by decide),
   (ctxDo_single_poll lateCancel).2.2 (by decide) GoErr.canceledTransport (by decide)⟩

/-- C9 counterexample: in `panickyDispatch` the panic is caught and logged
    and the process survives, but nothing is ever sent on the unbuffered
    channel, so the dispatch call never yields an outcome to the caller. -/
theorem ctxDo_panic_cex :
    panickyDispatch.handler (netOutcome panickyDispatch) = HandlerOutcome.panics ∧
    (ctxHttpDo panickyDispatch).panicLogged = true ∧
    (ctxHttpDo panickyDispatch).processTerminated = false ∧
    (ctxHttpDo panickyDispatch).returned = none := by decide

/-- C9 amended: a panic in the background task (the handler included) is
    caught by the deferred recover and logged, and the process does not
    terminate; but the dispatch call blocks forever instead of yielding an
    outcome, because the recovered goroutine never sends on the channel. -/
theorem ctxDo_panic_caught_but_blocks (m : DispatchModel)
    (hsel : ctxDoneAt m.tCancel m.tSelect = false)
    (hp : m.handler (netOutcome m) = HandlerOutcome.panics) :
    (ctxHttpDo m).panicLogged = true ∧ (ctxHttpDo m).processTerminated = false ∧
    (ctxHttpDo m).handlerInvocations = 1 ∧ (ctxHttpDo m).returned = none := by
  unfold ctxHttpDo
  simp [hsel, hp]

/-- Witness for C9 amended at `panickyDispatch`. -/
theorem ctxDo_panic_caught_but_blocks_witness :
    (ctxHttpDo panickyDispatch).panicLogged = true ∧
    (ctxHttpDo panickyDispatch).processTerminated = false ∧
    (ctxHttpDo panickyDispatch).handlerInvocations = 1 ∧
    (ctxHttpDo panickyDispatch).returned = none :=
  ctxDo_panic_caught_but_blocks panickyDispatch (by decide) (by decide)

/-- C5 counterexample: verification of `inboundReq`, whose inbound sign
    field is the non-empty string OLD, leaves the record with an empty sign
    field, not the original inbound value. -/
theorem verifySign_restores_cex :
    inboundReq.Sign = ascii "OLD" ∧
    (VerifySign demoKey inboundReq).2.Sign ≠ inboundReq.Sign := by decide

/-- C5 amended: after verification the record holds the inbound values of
    every field except the sign field, which is left cleared (empty), not
    restored to its inbound value. -/
theorem verifySign_frame (key : GoStr) (req : NotifyReq) :
    (VerifySign key req).2 = { req with Sign := [] } := by
  rcases hs : sign key (notifyReqParams { req with Sign := [] }) with _ | s <;>
    simp [VerifySign, hs]

/-- Helper: a successful run of the generator loop fills exactly `need`
    further positions, every produced byte taken from the alphabet. -/
theorem randLoop_spec (fuel : Nat) :
    ∀ (stream : List Nat) (cache remain need : Nat) (acc s : GoStr),
      randLoop stream cache remain need acc fuel = some s →
      s.length = acc.length + need ∧ ∀ b ∈ s, b ∈ acc ∨ b ∈ letterBytes := by
  induction fuel with
  | zero =>
    intro stream cache remain need acc s h
    exact absurd h (by simp [randLoop])
  | succ n ih =>
    intro stream cache remain need acc s h
    rw [randLoop.eq_def] at h
    simp only at h
    by_cases hneed : need = 0
    · rw [if_pos hneed] at h
      obtain rfl : acc = s := Option.some.inj h
      exact ⟨by omega, fun b hb => Or.inl hb⟩
    · rw [if_neg hneed] at h
      by_cases hrem : remain = 0
      · rw [if_pos hrem] at h
        cases stream with
        | nil => simp at h
        | cons c rest =>
          simp only at h
          by_cases hidx : c &&& letterIdxMask < letterBytes.length
          · rw [dif_pos hidx] at h
            obtain ⟨hlen, hmem⟩ := ih _ _ _ _ _ _ h
            refine ⟨by simp at hlen; omega, fun b hb => ?_⟩
            rcases hmem b hb with hacc | hlet
            · rcases List.mem_cons.mp hacc with rfl | hacc2
              · exact Or.inr (List.get_mem _ _ _)
              · exact Or.inl hacc2
            · exact Or.inr hlet
          · rw [dif_neg hidx] at h
            exact ih _ _ _ _ _ _ h
      · rw [if_neg hrem] at h
        by_cases hidx : cache &&& letterIdxMask < letterBytes.length
        · rw [dif_pos hidx] at h
          obtain ⟨hlen, hmem⟩ := ih _ _ _ _ _ _ h
          refine ⟨by simp at hlen; omega, fun b hb => ?_⟩
          rcases hmem b hb with hacc | hlet
          · rcases List.mem_cons.mp hacc with rfl | hacc2
            · exact Or.inr (List.get_mem _ _ _)
            · exact Or.inl hacc2
          · exact Or.inr hlet
        · rw [dif_neg hidx] at h
          exact ih _ _ _ _ _ _ h

/-- C7: whenever the nonce generator terminates it returns a string of
    exactly the requested length whose bytes are all drawn from the
    62-letter alphanumeric alphabet. -/
theorem randString_length_alphabet (stream : List Nat) (n fuel : Nat) (s : GoStr)
    (h : RandStringBytesMaskImprSrc stream n fuel = some s) :
    s.length = n ∧ ∀ b ∈ s, b ∈ letterBytes := by
  cases stream with
  | nil => simp [RandStringBytesMaskImprSrc] at h
  | cons c rest =>
    simp only [RandStringBytesMaskImprSrc] at h
    obtain ⟨hlen, hmem⟩ := randLoop_spec fuel rest c letterIdxMax n [] s h
    refine ⟨by simpa using hlen, fun b hb => ?_⟩
    rcases hmem b hb with hacc | hlet
    · simp at hacc
    · exact hlet

/-- Witness for C7 at length 32 with four zero draws. -/
theorem randString_length_alphabet_witness :
    ((RandStringBytesMaskImprSrc [0, 0, 0, 0] 32 64).getD []).length = 32 ∧
    ∀ b ∈ (RandStringBytesMaskImprSrc [0, 0, 0, 0] 32 64).getD [], b ∈ letterBytes :=
  randString_length_alphabet [0, 0, 0, 0] 32 64
    ((RandStringBytesMaskImprSrc [0, 0, 0, 0] 32 64).getD []) (by decide)

/-- Helper: an MD5 digest is sixteen bytes long. -/
theorem md5_length (msg : GoStr) : (md5 msg).length = 16 := by
  simp [md5, le32]

/-- Helper: every byte of an MD5 digest is below 256. -/
theorem md5_bytes_lt (msg : GoStr) : ∀ b ∈ md5 msg, b < 256 := by
  intro b hb
  simp only [md5, le32, List.mem_append, List.mem_map, List.mem_range] at hb
  rcases hb with ((⟨i, _, rfl⟩ | ⟨i, _, rfl⟩) | ⟨i, _, rfl⟩) | ⟨i, _, rfl⟩ <;>
    exact Nat.mod_lt _ (by norm_num)

/-- Helper: hex encoding doubles the byte count. -/
theorem hexEncode_length (bs : GoStr) : (hexEncode bs).length = 2 * bs.length := by
  induction bs with
  | nil => rfl
  | cons b rest ih =>
    simp only [hexEncode, List.map_cons, List.flatten_cons, List.length_append,
      List.length_cons, List.length_nil, List.length_cons] at *
    omega

/-- Helper: upper-casing a lower-case hex digit of a nibble lands in the
    upper-case hex alphabet. -/
theorem upperHex_digit_mem : ∀ n < 16, toUpperByte (lowerHexDigit n) ∈ upperHexBytes := by
  decide

/-- Helper: every byte of `HashMd5` is an upper-case hex digit. -/
theorem hashMd5_mem (s : GoStr) : ∀ b ∈ HashMd5 s, b ∈ upperHexBytes := by
  intro b hb
  simp only [HashMd5, List.mem_map] at hb
  obtain ⟨d, hd, rfl⟩ := hb
  simp only [hexEncode, List.mem_flatten, List.mem_map] at hd
  obtain ⟨l, ⟨x, hx, rfl⟩, hdl⟩ := hd
  have hx256 : x < 256 := md5_bytes_lt s x hx
  rcases List.mem_pair.mp hdl with rfl | rfl
  · exact upperHex_digit_mem _ ((Nat.div_lt_iff_lt_mul (by norm_num)).mpr hx256)
  · exact upperHex_digit_mem _ (Nat.mod_lt _ (by norm_num))

/-- C2: on any mapping whose canonical encoding succeeds with canonical
    string `c`, `sign` returns exactly the upper-cased hexadecimal MD5
    digest of the bytes of `c` followed by the ampersand-key marker and the
    shared secret, a 32-byte string over the upper-case hex alphabet. -/
theorem sign_md5_upper_hex (key : GoStr) (params : List (GoStr × GoStr)) (c : GoStr)
    (h : GenParamStr params = some c) :
    sign key params = some (HashMd5 (c ++ ascii "&key=" ++ key)) ∧
    (HashMd5 (c ++ ascii "&key=" ++ key)).length = 32 ∧
    ∀ b ∈ HashMd5 (c ++ ascii "&key=" ++ key), b ∈ upperHexBytes := by
  refine ⟨by simp [sign, h], ?_, hashMd5_mem _⟩
  simp [HashMd5, hexEncode_length, md5_length]

/-- Witness for C2 at a one-pair mapping. -/
theorem sign_md5_upper_hex_witness :
    sign (ascii "K") [(ascii "a", ascii "b")]
      = some (HashMd5 (ascii "a=b" ++ ascii "&key=" ++ ascii "K")) ∧
    (HashMd5 (ascii "a=b" ++ ascii "&key=" ++ ascii "K")).length = 32 ∧
    ∀ b ∈ HashMd5 (ascii "a=b" ++ ascii "&key=" ++ ascii "K"), b ∈ upperHexBytes :=
  sign_md5_upper_hex (ascii "K") [(ascii "a", ascii "b")] (ascii "a=b") (by decide)

/-- Helper: byte-lexicographic comparison is total. -/
theorem goStrLe_total : ∀ a b : GoStr, goStrLe a b = true ∨ goStrLe b a = true := by
  intro a
  induction a with
  | nil => intro b; exact Or.inl rfl
  | cons x xs ih =>
    intro b
    cases b with
    | nil => exact Or.inr rfl
    | cons y ys =>
      rcases Nat.lt_trichotomy x y with hxy | hxy | hxy
      · left; simp [goStrLe, hxy]
      · subst hxy
        rcases ih ys with h | h
        · left; simpa [goStrLe] using h
        · right; simpa [goStrLe] using h
      · right; simp [goStrLe, hxy]

/-- Helper: byte-lexicographic comparison is transitive. -/
theorem goStrLe_trans :
    ∀ a b c : GoStr, goStrLe a b = true → goStrLe b c = true → goStrLe a c = true := by
  intro a
  induction a with
  | nil => intro b c _ _; rfl
  | cons x xs ih =>
    intro b c h1 h2
    cases b with
    | nil => simp [goStrLe] at h1
    | cons y ys =>
      cases c with
      | nil => simp [goStrLe] at h2
      | cons z zs =>
        simp only [goStrLe] at h1 h2 ⊢
        rcases Nat.lt_trichotomy x y with hxy | hxy | hxy <;>
          rcases Nat.lt_trichotomy y z with hyz | hyz | hyz <;>
          simp_all <;> try omega
        all_goals (subst hxy; subst hyz; exact ih _ _ h1 h2)

/-- Helper: byte-lexicographic comparison is antisymmetric. -/
theorem goStrLe_antisymm :
    ∀ a b : GoStr, goStrLe a b = true → goStrLe b a = true → a = b := by
  intro a
  induction a with
  | nil =>
    intro b _ h2
    cases b with
    | nil => rfl
    | cons y ys => simp [goStrLe] at h2
  | cons x xs ih =>
    intro b h1 h2
    cases b with
    | nil => simp [goStrLe] at h1
    | cons y ys =>
      simp only [goStrLe] at h1 h2
      rcases Nat.lt_trichotomy x y with hxy | hxy | hxy
      · simp [hxy, Nat.lt_asymm hxy] at h2
      · subst hxy
        simp only [Nat.lt_irrefl, if_false] at h1 h2
        exact congrArg (x :: ·) (ih ys h1 h2)
      · simp [hxy, Nat.lt_asymm hxy] at h1

instance : IsTotal GoStr keyLe := ⟨goStrLe_total⟩

instance : IsTrans GoStr keyLe := ⟨goStrLe_trans⟩

instance : IsAntisymm GoStr keyLe := ⟨goStrLe_antisymm⟩

/-- Helper: sorting is invariant under permutation of the key list. -/
theorem insertionSort_eq_of_perm {l1 l2 : List GoStr} (h : l1.Perm l2) :
    List.insertionSort keyLe l1 = List.insertionSort keyLe l2 :=
  List.eq_of_perm_of_sorted
    (((List.perm_insertionSort keyLe l1).trans h).trans (List.perm_insertionSort keyLe l2).symm)
    (List.sorted_insertionSort keyLe l1) (List.sorted_insertionSort keyLe l2)

/-- Helper: with no duplicate keys, at most one pair matches a key. -/
theorem filter_key_length_le (v : List (GoStr × GoStr)) (k : GoStr)
    (hnd : (v.map Prod.fst).Nodup) :
    (v.filter (fun kv => decide (kv.1 = k))).length ≤ 1 := by
  induction v with
  | nil => simp
  | cons kv rest ih =>
    simp only [List.map_cons, List.nodup_cons] at hnd
    by_cases hk : kv.1 = k
    · rw [List.filter_cons, if_pos (by simp [hk])]
      have hempty : rest.filter (fun kv => decide (kv.1 = k)) = [] := by
        rw [List.filter_eq_nil_iff]
        intro x hx
        simp only [decide_eq_true_eq]
        intro hxk
        exact hnd.1 (by rw [hk, ← hxk]; exact List.mem_map_of_mem Prod.fst hx)
      simp [hempty]
    · rw [List.filter_cons, if_neg (by simp [hk])]
      exact ih hnd.2

/-- Helper: the values stored under a key agree across permuted `Values`
    with no duplicate keys. -/
theorem lookupVals_perm {v1 v2 : List (GoStr × GoStr)} (h : v1.Perm v2)
    (hnd : (v1.map Prod.fst).Nodup) (k : GoStr) : lookupVals v1 k = lookupVals v2 k := by
  have hp := h.filter (fun kv => decide (kv.1 = k))
  have h1 := filter_key_length_le v1 k hnd
  unfold lookupVals
  cases e1 : v1.filter (fun kv => decide (kv.1 = k)) with
  | nil =>
    rw [e1] at hp
    rw [(List.Perm.eq_nil hp.symm)]
  | cons a tail =>
    rw [e1] at hp h1
    have : tail = [] := by
      cases tail with
      | nil => rfl
      | cons b t => simp at h1
    subst this
    rw [List.perm_singleton.mp hp.symm]

/-- Helper: `url.Values.Encode` is invariant under permutation of `Values`
    with no duplicate keys. -/
theorem valuesEncode_perm {v1 v2 : List (GoStr × GoStr)} (h : v1.Perm v2)
    (hnd : (v1.map Prod.fst).Nodup) : valuesEncode v1 = valuesEncode v2 := by
  unfold valuesEncode
  rw [insertionSort_eq_of_perm (h.map Prod.fst)]
  have hg : (fun k => (lookupVals v1 k).map (encodePair k))
      = (fun k => (lookupVals v2 k).map (encodePair k)) := by
    funext k
    rw [lookupVals_perm h hnd k]
  rw [hg]

/-- Helper: `Set` of a fresh key appends the pair. -/
theorem valuesSet_of_not_mem {v : List (GoStr × GoStr)} {k : GoStr}
    (h : k ∉ v.map Prod.fst) (val : GoStr) : valuesSet v k val = v ++ [(k, val)] := by
  unfold valuesSet
  rw [if_neg]
  simp only [List.any_eq_true, decide_eq_true_eq, not_exists, not_and]
  intro kv hkv hk
  exact h (hk ▸ List.mem_map_of_mem Prod.fst hkv)

/-- Helper: with no duplicate keys, building the `url.Values` by repeated
    `Set` keeps the non-empty pairs in input order. -/
theorem foldl_set_eq (l : List (GoStr × GoStr)) :
    ∀ v : List (GoStr × GoStr), ((v ++ l).map Prod.fst).Nodup →
    List.foldl (fun v kv => if kv.2 ≠ [] then valuesSet v kv.1 kv.2 else v) v l
      = v ++ l.filter (fun kv => decide (kv.2 ≠ [])) := by
  induction l with
  | nil => intro v _; simp
  | cons kv rest ih =>
    intro v h
    simp only [List.foldl_cons]
    by_cases hv : kv.2 = []
    · rw [if_neg (fun hne => hne hv)]
      have hsub : ((v ++ rest).map Prod.fst).Sublist ((v ++ kv :: rest).map Prod.fst) :=
        ((List.sublist_cons_self kv rest).append_left v).map Prod.fst
      rw [ih v (hsub.nodup h)]
      simp [List.filter_cons, hv]
    · rw [if_pos hv]
      have hfresh : kv.1 ∉ v.map Prod.fst := by
        rw [List.map_append, List.nodup_append] at h
        exact fun hmem => h.2.2 hmem (by simp)
      rw [valuesSet_of_not_mem hfresh kv.2]
      have hassoc : (v ++ [(kv.1, kv.2)]) ++ rest = v ++ kv :: rest := by simp
      have := ih (v ++ [(kv.1, kv.2)]) (by rw [hassoc]; exact h)
      rw [this]
      simp [List.filter_cons, hv]

/-- Helper: with no duplicate keys the built `Values` is the input minus
    its empty-valued pairs. -/
theorem buildValues_eq_filter (params : List (GoStr × GoStr))
    (h : (params.map Prod.fst).Nodup) :
    buildValues params = params.filter (fun kv => decide (kv.2 ≠ [])) := by
  have := foldl_set_eq params [] (by simpa using h)
  simpa [buildValues] using this

/-- C3: two mappings (no duplicate keys) whose non-empty pairs are the same
    up to order encode to byte-identical canonical strings. -/
theorem genParamStr_order_invariant (l1 l2 : List (GoStr × GoStr))
    (h1 : (l1.map Prod.fst).Nodup) (h2 : (l2.map Prod.fst).Nodup)
    (hp : (l1.filter (fun kv => decide (kv.2 ≠ []))).Perm
          (l2.filter (fun kv => decide (kv.2 ≠ [])))) :
    GenParamStr l1 = GenParamStr l2 := by
  unfold GenParamStr
  rw [buildValues_eq_filter l1 h1, buildValues_eq_filter l2 h2]
  have hnd : ((l1.filter (fun kv => decide (kv.2 ≠ []))).map Prod.fst).Nodup :=
    ((List.filter_sublist l1).map Prod.fst).nodup h1
  rw [valuesEncode_perm hp hnd]

/-- Witness for C3 at a two-pair mapping and its reversal. -/
theorem genParamStr_order_invariant_witness :
    GenParamStr [(ascii "b", ascii "2"), (ascii "a", ascii "1")]
      = GenParamStr [(ascii "a", ascii "1"), (ascii "b", ascii "2")] :=
  genParamStr_order_invariant
    [(ascii "b", ascii "2"), (ascii "a", ascii "1")]
    [(ascii "a", ascii "1"), (ascii "b", ascii "2")]
    (by decide) (by decide) (by decide)

/-- C4 counterexample: `presignedReq` carries the non-empty sign field x,
    so the signature computed over it covers that field; setting the sign
    field to that signature and then verifying fails, because verification
    recomputes the signature without the old sign value. -/
theorem verify_sign_roundtrip_cex :
    presignedReq.Sign ≠ [] ∧
    (sign demoKey (notifyReqParams presignedReq)).isSome = true ∧
    (VerifySign demoKey
      { presignedReq with
        Sign := (sign demoKey (notifyReqParams presignedReq)).getD [] }).1 = false := by
  decide

/-- Helper: clearing the sign field erases a previous sign assignment. -/
theorem notifyReqParams_clear (O : NotifyReq) (s : GoStr) :
    notifyReqParams { { O with Sign := s } with Sign := [] }
      = notifyReqParams { O with Sign := [] } := rfl

/-- Helper: the verdict of `VerifySign` is the comparison of the inbound
    signature with the one recomputed over the cleared record. -/
theorem verifySign_verdict (key : GoStr) (req : NotifyReq) (s : GoStr)
    (hs : sign key (notifyReqParams { req with Sign := [] }) = some s) :
    (VerifySign key req).1 = decide (req.Sign = s) := by
  simp [VerifySign, hs]

/-- C4 amended: for a record whose sign field is empty at signing time,
    signing, installing the signature and verifying succeeds; and changing
    any single byte of the installed signature to a different byte makes
    verification fail. -/
theorem verify_sign_roundtrip (key : GoStr) (O : NotifyReq) (sig : GoStr)
    (h0 : O.Sign = []) (hs : sign key (notifyReqParams O) = some sig)
    (j : Nat) (hj : j < sig.length) (c : Nat) (hc : c ≠ sig.get ⟨j, hj⟩) :
    (VerifySign key { O with Sign := sig }).1 = true ∧
    (VerifySign key { O with Sign := sig.set j c }).1 = false := by
  have hO : notifyReqParams { O with Sign := ([] : GoStr) } = notifyReqParams O := by
    simp [notifyReqParams, h0]
  have hset : sig.set j c ≠ sig := by
    intro he
    have h1 : (sig.set j c)[j]? = some c := by
      rw [List.getElem?_set_self]
      · simp [hj]
    rw [he, List.getElem?_eq_getElem hj] at h1
    exact hc (by simpa [List.get_eq_getElem] using (Option.some.inj h1).symm)
  constructor
  · rw [verifySign_verdict key { O with Sign := sig } sig
      (by rw [notifyReqParams_clear, hO]; exact hs)]
    simp
  · rw [verifySign_verdict key { O with Sign := sig.set j c } sig
      (by rw [notifyReqParams_clear, hO]; exact hs)]
    simp [hset]

/-- Witness for C4 amended: the empty record signed under the demo secret,
    with byte 0 of the signature corrupted to the zero byte. -/
theorem verify_sign_roundtrip_witness :
    (VerifySign demoKey { emptyNotifyReq with Sign := demoSig }).1 = true ∧
    (VerifySign demoKey { emptyNotifyReq with Sign := demoSig.set 0 0 }).1 = false :=
  verify_sign_roundtrip demoKey emptyNotifyReq demoSig (by decide) (by decide)
    0 (by decide) 0 (by decide)

end Wechat
